import Mathlib

/-!
# Verification of the Data Quality panel core logic

Shallow embedding of the status/threshold engine and the exact-duplicate
grouping pass of `plugins/panels/data_quality/__init__.py`
(class `DataQualityPanel`), together with theorems settling the frozen
claims about it.

Conventions:
* Python floats are modelled as rationals (`ℚ`); the claims only involve
  exact decimal arithmetic.
* Python `None` is modelled by `Option`; a Python `TypeError` raised by
  arithmetic/comparison on `None` is modelled by an explicit error result.
* Dataset/store queries are external collaborators (out of scope per the
  spec); their outcomes enter the embedding as explicit parameters.
-/

/-- Result of a Python method call: a returned value, a raised exception,
or the implicit `None` return when the function falls off the end. -/
inductive PyResult (α : Type) where
  | ok (a : α)
  | exn (msg : String)
  | pyNone
  deriving DecidableEq, Repr

/-- Python truthiness of an optional float: `None` and `0.0` are falsy. -/
def pyTruthy (o : Option ℚ) : Bool :=
  match o with
  | none => false
  | some x => x ≠ 0

/-- `DataQualityPanel.get_threshold_range(min_v, max_v, lower_std_bound,
upper_std_bound)`, translated branch by branch from the source. -/
def get_threshold_range (min_v max_v lower_std_bound upper_std_bound : ℚ) :
    ℚ × ℚ :=
  if lower_std_bound ≤ min_v ∧ min_v ≤ upper_std_bound ∧
      lower_std_bound ≤ max_v ∧ max_v ≤ upper_std_bound then
    (min_v, max_v)
  else if min_v < lower_std_bound ∧ max_v ≤ upper_std_bound then
    (min_v, lower_std_bound)
  else if max_v > upper_std_bound ∧ min_v ≥ lower_std_bound then
    (upper_std_bound, max_v)
  else if min_v < lower_std_bound ∧ max_v > upper_std_bound then
    if lower_std_bound - min_v > max_v - upper_std_bound then
      (min_v, lower_std_bound)
    else
      (upper_std_bound, max_v)
  else
    (lower_std_bound, upper_std_bound)

/-- The saved-threshold reuse guard at the top of
`DataQualityPanel.get_plot_defaults`: Python
`new_lower and new_upper and new_lower >= min_v and new_lower < max_v and
new_upper > min_v and new_upper <= max_v`. -/
def savedReuseApplies (new_lower new_upper : Option ℚ) (min_v max_v : ℚ) :
    Prop :=
  pyTruthy new_lower = true ∧ pyTruthy new_upper = true ∧
    min_v ≤ new_lower.getD 0 ∧ new_lower.getD 0 < max_v ∧
    min_v < new_upper.getD 0 ∧ new_upper.getD 0 ≤ max_v

instance (new_lower new_upper : Option ℚ) (min_v max_v : ℚ) :
    Decidable (savedReuseApplies new_lower new_upper min_v max_v) := by
  unfold savedReuseApplies; infer_instance

/-- `DataQualityPanel.get_plot_defaults(ctx, field, method)`.  The saved
config entries `issue_config["min"]`/`["max"]` enter as `new_lower` and
`new_upper` (absent key or `None` value both give `none`), and the observed
field bounds `ctx.dataset.bounds(...)` enter as `min_v`, `max_v`.  In the
`percentage` branch the source multiplies `new_lower * value_range` before
any `None`-check, so a `None` bound raises a `TypeError` there; the same
happens in the `threshold` branch when a `None` bound is compared. -/
def get_plot_defaults (new_lower new_upper : Option ℚ) (min_v max_v : ℚ)
    (method : String) : PyResult (ℚ × ℚ) :=
  if savedReuseApplies new_lower new_upper min_v max_v then
    .ok (new_lower.getD 0, new_upper.getD 0)
  else if method = "percentage" then
    match new_lower with
    | none => .exn "TypeError"
    | some nl =>
      let lower_factor := nl * (max_v - min_v)
      let lower_thresh :=
        if min_v + lower_factor ≤ max_v then min_v + lower_factor else min_v
      match new_upper with
      | none => .exn "TypeError"
      | some nu =>
        let upper_factor := nu * (max_v - min_v)
        let upper_thresh :=
          if min_v + upper_factor ≥ min_v then min_v + upper_factor
          else max_v
        if upper_thresh < lower_thresh then .ok (min_v, min_v)
        else .ok (lower_thresh, upper_thresh)
  else if method = "threshold" then
    match new_upper with
    | none => .exn "TypeError"
    | some nu =>
      if nu < min_v then .ok (nu, nu)
      else
        match new_lower with
        | none => .exn "TypeError"
        | some nl =>
          if nl > max_v then .ok (nl, nl)
          else .ok (nl, nu)
  else
    .pyNone

/-- `DataQualityPanel.prepare_histogram_data(counts, edges, lower_thresh,
upper_thresh)`: the loop over `range(len(counts))` appending to the two
output lists, rendered as maps over `List.range`. -/
def prepare_histogram_data (counts : List ℕ) (edges : List ℚ)
    (lower_thresh upper_thresh : ℚ) : List ℕ × List ℕ :=
  ((List.range counts.length).map (fun i =>
      let midpoint := (edges.getD i 0 + edges.getD (i + 1) 0) / 2
      if lower_thresh ≤ midpoint ∧ midpoint ≤ upper_thresh then
        counts.getD i 0
      else 0),
   (List.range counts.length).map (fun i =>
      let midpoint := (edges.getD i 0 + edges.getD (i + 1) 0) / 2
      if lower_thresh ≤ midpoint ∧ midpoint ≤ upper_thresh then 0
      else counts.getD i 0))

/-! ## Exact-duplicate grouping (`_process_exact_duplicates`) -/

/-- The ids appended for hash `h` by the `for id, filehash in zip(...)`
loop of `_process_exact_duplicates`, i.e. the sample ids whose hash equals
`h`, in encounter order. -/
def idsFor (pairs : List (ℕ × String)) (h : String) : List ℕ :=
  (pairs.filter (fun p => p.2 == h)).map Prod.fst

/-- One `filehash_to_ids[filehash].append(id)` step on the association
list representing the `defaultdict(list)`: append to the existing entry,
or create a new entry at the end (Python dict insertion order). -/
def addToGroups : List (String × List ℕ) → String → ℕ →
    List (String × List ℕ)
  | [], h, i => [(h, [i])]
  | g :: rest, h, i =>
      if g.1 = h then (g.1, g.2 ++ [i]) :: rest
      else g :: addToGroups rest h i

/-- The `for id, filehash in zip(sample_ids, filehashes)` loop of
`_process_exact_duplicates`, building `filehash_to_ids` left to right. -/
def buildGroupsAux (dups : List String) :
    List (String × List ℕ) → List (ℕ × String) → List (String × List ℕ)
  | acc, [] => acc
  | acc, p :: ps =>
      buildGroupsAux dups
        (if p.2 ∈ dups then addToGroups acc p.2 p.1 else acc) ps

/-- `filehash_to_ids` after the whole loop, starting from the empty
`defaultdict(list)`. -/
def buildGroups (dups : List String) (pairs : List (ℕ × String)) :
    List (String × List ℕ) :=
  buildGroupsAux dups [] pairs

/-- Association-list lookup, the meaning of `filehash_to_ids[h]`. -/
def lookupIds : List (String × List ℕ) → String → Option (List ℕ)
  | [], _ => none
  | g :: rest, h => if g.1 = h then some g.2 else lookupIds rest h

/-- The set comprehension
`{k for k, v in Counter(filehashes).items() if v > 1}`.  A Python set has
no specified iteration order; we enumerate it as the deduplicated hash
list filtered to hashes with count `> 1`. -/
def dup_filehashes (hashes : List String) : List String :=
  hashes.dedup.filter (fun h => 1 < hashes.count h)

/-- `DataQualityPanel._process_exact_duplicates`, acting on the zipped
`(sample id, filehash)` value lists of the samples that have the
`filehash` field.  Returns `(dup_filehashes, dup_sample_ids,
num_duplicates)` exactly as the source does. -/
def process_exact_duplicates (pairs : List (ℕ × String)) :
    List String × List (String × List ℕ) × ℕ :=
  let hashes := pairs.map Prod.snd
  let dups := dup_filehashes hashes
  let groups := buildGroups dups pairs
  (dups, groups, (groups.map (fun g => g.2.length)).sum)

/-- The `if ctx.dataset.has_field("filehash")` guard of
`_process_exact_duplicates`: when the field exists, the value lists come
from `ctx.dataset.exists("filehash")` (samples whose `filehash` is
populated); otherwise both lists are empty.  A dataset is modelled as a
list of `(sample id, optional filehash)`. -/
def process_exact_duplicates_on_dataset (hasField : Bool)
    (samples : List (ℕ × Option String)) :
    List String × List (String × List ℕ) × ℕ :=
  process_exact_duplicates
    (if hasField then
      samples.filterMap (fun s => s.2.map (fun h => (s.1, h)))
    else [])

/-! ## Issue status engine (`check_computing_status` and friends) -/

/-- The four issue lifecycle states.  Modelled from the spec:
`constants.STATUS` (the `constants` module is not part of the sources)
maps indices 0..3 to the states `NOT_COMPUTED → COMPUTING → NEEDS_REVIEW
→ REVIEWED` in that order, so `STATUS[0]` is `notComputed`, `STATUS[1]`
is `computing`, `STATUS[2]` is `needsReview` and `STATUS[3]` is
`reviewed`. -/
inductive IssueStatus where
  | notComputed
  | computing
  | needsReview
  | reviewed
  deriving DecidableEq, Repr

/-- The per-issue-type `computing` record kept in the store. -/
structure ComputingRecord where
  is_computing : Bool
  execution_type : String
  delegation_run_id : String
  delegation_status : String
  deriving DecidableEq, Repr

/-- The slice of the persisted store content for one issue type that the
status engine reads and writes: `content["status"][issue_type]`,
`content["computing"][issue_type]` and
`content["last_scan"][issue_type]["timestamp"]`.  Timestamps are rational
numbers measured in minutes, so `timedelta(minutes=10)` is `10`.  The
`results`/`counts` entries hold external query data that no claim reads;
they are not represented. -/
structure StoreContent where
  status : IssueStatus
  computing : ComputingRecord
  lastScanTimestamp : Option ℚ
  deriving DecidableEq, Repr

/-- `DataQualityPanel.change_computing_status`: replaces the issue type's
`computing` record wholesale and, when `issue_status` is one of the four
`STATUS` values (`some`), also overwrites `content["status"][issue_type]`;
`issue_status=None` (`none`) leaves the status untouched. -/
def change_computing_status (c : StoreContent) (is_computing : Bool)
    (execution_type delegation_run_id delegation_status : String)
    (issue_status : Option IssueStatus) : StoreContent :=
  { status :=
      match issue_status with
      | some s => s
      | none => c.status,
    computing :=
      ⟨is_computing, execution_type, delegation_run_id, delegation_status⟩,
    lastScanTimestamp := c.lastScanTimestamp }

/-- The status effect of `navigate_to_screen(..., next_screen="analysis")`
on the store: any non-`REVIEWED` status is set to `NEEDS_REVIEW` via
`change_computing_status` with its default keyword values.  The view and
panel-state updates it also performs touch no store status. -/
def navigate_to_analysis (c : StoreContent) : StoreContent :=
  if c.status ≠ IssueStatus.reviewed then
    change_computing_status c false "" "" "" (some IssueStatus.needsReview)
  else c

/-- `DataQualityPanel._process_issue_computation(ctx, issue_type,
recompute)`.  The histogram/duplicate results it stores come from
external dataset queries; whether those queries (and the store round
trips) succeed enters as `ok`, and a raised exception is `none`.  On
success the source updates `content["last_scan"][issue_type]` to the
current time, writes the results, then calls `change_computing_status`
with `is_computing=False`, the previous `execution_type`/
`delegation_run_id`, empty `delegation_status` and
`issue_status=STATUS[2]`; finally, when `recompute` is false, it
navigates to the analysis screen. -/
def process_issue_computation (c : StoreContent) (now : ℚ) (ok : Bool)
    (recompute : Bool) : Option StoreContent :=
  if ok then
    let c1 : StoreContent :=
      { status := c.status, computing := c.computing,
        lastScanTimestamp := some now }
    let c2 := change_computing_status c1 false c.computing.execution_type
      c.computing.delegation_run_id "" (some IssueStatus.needsReview)
    some (if recompute then c2 else navigate_to_analysis c2)
  else none

/-- Outcome of polling `DelegatedOperationService().get(run_id).run_state`:
the call can raise (`exc`), or return a run state that is `None` or a
string. -/
inductive PollOutcome where
  | exc
  | state (s : Option String)
  deriving DecidableEq, Repr

/-- `DataQualityPanel.check_computing_status` for a provided issue type.
`now` stands for `datetime.utcnow()`, `poll` for the delegated-service
poll, and `recomputeOk` for whether a `_process_issue_computation` call
made along the way succeeds.  The result is `none` when an exception
escapes (only possible from the uncaught recompute in the `completed`
branch), and otherwise the final store content paired with the alert
string written to `ctx.panel.state.alert` (empty when none is set). -/
def check_computing_status (c : StoreContent) (now : ℚ) (run_id : String)
    (poll : PollOutcome) (recomputeOk : Bool) :
    Option (StoreContent × String) :=
  if c.computing.execution_type ≠ "delegate_execution" then
    -- Immediate executions timeout after 10 minutes
    match c.lastScanTimestamp with
    | none =>
        -- timestamp is backfilled with `utcnow()`, so the timeout
        -- comparison `utcnow() > timestamp + 10min` is false
        some ({ status := c.status, computing := c.computing,
                lastScanTimestamp := some now }, "")
    | some ts =>
        if now > ts + 10 then
          some (change_computing_status c false "" "" ""
            (some IssueStatus.notComputed), "")
        else some (c, "")
  else
    match poll with
    | .exc =>
        some (change_computing_status c false "" "" ""
          (some IssueStatus.notComputed), "")
    | .state s =>
        if s = some "failed" then
          let c1 := change_computing_status c false "" "" ""
            (some IssueStatus.notComputed)
          match process_issue_computation c1 now recomputeOk false with
          | some c2 => some (c2, "")
          | none => some (c1, "computation_failed")
        else if s = some "completed" then
          let c1 := change_computing_status c false "delegate_execution"
            run_id "completed" (some IssueStatus.needsReview)
          match process_issue_computation c1 now recomputeOk true with
          | some c2 => some (c2, "")
          | none => none
        else
          match s with
          | some st =>
              some (change_computing_status c true "delegate_execution"
                run_id st.toLower none, "")
          | none => some (c, "")

/-- Joining an existing `defaultdict` entry with the ids appended later:
`some ids` grows by the tail; a missing entry materialises exactly when at
least one id is appended. -/
def combineIds (o : Option (List ℕ)) (t : List ℕ) : Option (List ℕ) :=
  match o, t with
  | some ids, t => some (ids ++ t)
  | none, [] => none
  | none, t => some t

/-! ## Theorems -/

/-! ### Threshold-range clamping (`get_threshold_range`) -/

/-- C3 counterexample: with `min_v = -5, max_v = 50` and bounds
`[0, 100]`, only the lower side is out of bounds, yet `get_threshold_range`
returns `(-5, 0)` — the span from the outlying minimum up to the lower
bound — not the clamped `(0, 50)` the claim states. -/
theorem c3_counterexample :
    get_threshold_range (-5) 50 0 100 = (-5, 0) ∧
      get_threshold_range (-5) 50 0 100 ≠ (0, 50) := by
  constructor
  · norm_num [get_threshold_range]
  · norm_num [get_threshold_range]

/-- C3 (amended): when only the lower side is out of bounds
(`min_v < lower_std_bound ≤ max_v ≤ upper_std_bound`),
`get_threshold_range` returns `(min_v, lower_std_bound)`, the range from
the out-of-bounds minimum up to the lower bound; symmetrically, when only
the upper side is out of bounds it returns `(upper_std_bound, max_v)`. -/
theorem c3_one_side_out_of_bounds (min_v max_v lo hi : ℚ) :
    (min_v < lo → lo ≤ max_v → max_v ≤ hi →
      get_threshold_range min_v max_v lo hi = (min_v, lo)) ∧
    (lo ≤ min_v → min_v ≤ hi → hi < max_v →
      get_threshold_range min_v max_v lo hi = (hi, max_v)) := by
  constructor
  · intro h1 h2 h3
    unfold get_threshold_range
    rw [if_neg, if_pos ⟨h1, h3⟩]
    rintro ⟨ha, -⟩
    linarith
  · intro h1 h2 h3
    unfold get_threshold_range
    rw [if_neg, if_neg, if_pos ⟨h3, h1⟩]
    · rintro ⟨ha, -⟩
      linarith
    · rintro ⟨-, -, -, hd⟩
      linarith

/-- C3 witness: both amended branches evaluated at concrete inputs. -/
theorem c3_one_side_out_of_bounds_witness :
    get_threshold_range (-5) 50 0 100 = (-5, 0) ∧
      get_threshold_range 0 150 0 100 = (100, 150) :=
  ⟨(c3_one_side_out_of_bounds (-5) 50 0 100).1 (by norm_num) (by norm_num)
      (by norm_num),
   (c3_one_side_out_of_bounds 0 150 0 100).2 (by norm_num) (by norm_num)
      (by norm_num)⟩

/-- Fixed point of `get_threshold_range` on an output of the form
`(min_v, lower_std_bound)` when the bounds are ordered. -/
theorem get_threshold_range_fix_lower (m lo hi : ℚ) (h1 : m < lo)
    (h2 : lo ≤ hi) : get_threshold_range m lo lo hi = (m, lo) := by
  unfold get_threshold_range
  rw [if_neg, if_pos ⟨h1, h2⟩]
  rintro ⟨ha, -⟩
  linarith

/-- Fixed point of `get_threshold_range` on an output of the form
`(upper_std_bound, max_v)` when the bounds are ordered. -/
theorem get_threshold_range_fix_upper (M lo hi : ℚ) (h1 : hi < M)
    (h2 : lo ≤ hi) : get_threshold_range hi M lo hi = (hi, M) := by
  unfold get_threshold_range
  rw [if_neg, if_neg, if_pos ⟨h1, h2⟩]
  · rintro ⟨ha, -⟩
    linarith
  · rintro ⟨-, -, -, hd⟩
    linarith

/-- C7 counterexample: with inverted standard bounds
(`lower_std_bound = 10 > 0 = upper_std_bound`), `get_threshold_range` is
not idempotent: one application to `(5, 5)` gives `(0, 5)`, a second
application gives `(0, 10)`. -/
theorem c7_counterexample :
    get_threshold_range (get_threshold_range 5 5 10 0).1
        (get_threshold_range 5 5 10 0).2 10 0 ≠
      get_threshold_range 5 5 10 0 := by
  have h1 : get_threshold_range 5 5 10 0 = (0, 5) := by
    norm_num [get_threshold_range]
  have h2 : get_threshold_range 0 5 10 0 = (0, 10) := by
    norm_num [get_threshold_range]
  rw [h1]
  simp [h2]

/-- C7 (amended): `get_threshold_range` is idempotent whenever the
standard bounds are ordered (`lower_std_bound ≤ upper_std_bound`);
feeding its output back in with the same bounds reproduces it. -/
theorem c7_idempotent_on_ordered_bounds (min_v max_v lo hi : ℚ)
    (hbounds : lo ≤ hi) :
    get_threshold_range (get_threshold_range min_v max_v lo hi).1
        (get_threshold_range min_v max_v lo hi).2 lo hi =
      get_threshold_range min_v max_v lo hi := by
  obtain ⟨p, q, hE⟩ :
      ∃ p q, get_threshold_range min_v max_v lo hi = (p, q) := ⟨_, _, rfl⟩
  rw [hE]
  show get_threshold_range p q lo hi = (p, q)
  unfold get_threshold_range at hE
  split_ifs at hE with h1 h2 h3 h4 h5
  · injection hE with hp hq
    subst hp; subst hq
    unfold get_threshold_range
    rw [if_pos h1]
  · injection hE with hp hq
    subst hp; subst hq
    exact get_threshold_range_fix_lower _ _ _ h2.1 hbounds
  · injection hE with hp hq
    subst hp; subst hq
    exact get_threshold_range_fix_upper _ _ _ h3.1 hbounds
  · injection hE with hp hq
    subst hp; subst hq
    exact get_threshold_range_fix_lower _ _ _ h4.1 hbounds
  · injection hE with hp hq
    subst hp; subst hq
    exact get_threshold_range_fix_upper _ _ _ h4.2 hbounds
  · injection hE with hp hq
    subst hp; subst hq
    unfold get_threshold_range
    rw [if_pos ⟨le_refl lo, hbounds, hbounds, le_refl hi⟩]

/-- C7 witness: idempotence applied at a concrete input with ordered
bounds. -/
theorem c7_idempotent_on_ordered_bounds_witness :
    (0 : ℚ) ≤ 100 ∧
      get_threshold_range (get_threshold_range (-5) 50 0 100).1
          (get_threshold_range (-5) 50 0 100).2 0 100 =
        get_threshold_range (-5) 50 0 100 :=
  ⟨by norm_num,
   c7_idempotent_on_ordered_bounds (-5) 50 0 100 (by norm_num)⟩

/-! ### Threshold default resolution (`get_plot_defaults`) -/

/-- C1 counterexample: with observed bounds `min_v = 0, max_v = 100` and
saved config `{min: 0.1, max: 0.9}` under `detect_method="percentage"`,
`get_plot_defaults` does not return `(10, 90)`: the saved values `0.1`
and `0.9` lie within `[0, 100]`, so the saved-reuse branch fires first
and returns them verbatim as `(0.1, 0.9)`. -/
theorem c1_counterexample :
    get_plot_defaults (some (1 / 10)) (some (9 / 10)) 0 100 "percentage" =
        PyResult.ok (1 / 10, 9 / 10) ∧
      get_plot_defaults (some (1 / 10)) (some (9 / 10)) 0 100
          "percentage" ≠ PyResult.ok (10, 90) := by
  have hr : savedReuseApplies (some (1 / 10)) (some (9 / 10)) 0 100 := by
    refine ⟨by norm_num [pyTruthy], by norm_num [pyTruthy], ?_, ?_, ?_, ?_⟩
      <;> norm_num
  constructor
  · unfold get_plot_defaults
    rw [if_pos hr]
    rfl
  · unfold get_plot_defaults
    rw [if_pos hr]
    intro h
    injection h with h
    have := congrArg Prod.fst h
    norm_num at this

/-- C1 (amended): saved thresholds that lie within the observed bounds
are reused verbatim regardless of method, so for `min_v = 0,
max_v = 100` and saved `{min: 0.1, max: 0.9}` with
`detect_method="percentage"`, `get_plot_defaults` resolves to
`(0.1, 0.9)` — the percentage formula `min_v + frac*(max_v - min_v)`
never runs on this input. -/
theorem c1_saved_reuse_precedence (nl nu min_v max_v : ℚ) (method : String)
    (h1 : nl ≠ 0) (h2 : nu ≠ 0) (h3 : min_v ≤ nl) (h4 : nl < max_v)
    (h5 : min_v < nu) (h6 : nu ≤ max_v) :
    get_plot_defaults (some nl) (some nu) min_v max_v method =
        PyResult.ok (nl, nu) ∧
      get_plot_defaults (some (1 / 10)) (some (9 / 10)) 0 100
          "percentage" = PyResult.ok (1 / 10, 9 / 10) := by
  have hr : savedReuseApplies (some nl) (some nu) min_v max_v := by
    refine ⟨?_, ?_, h3, h4, h5, h6⟩ <;> simp [pyTruthy, h1, h2]
  have hr' : savedReuseApplies (some (1 / 10)) (some (9 / 10)) 0 100 := by
    refine ⟨by norm_num [pyTruthy], by norm_num [pyTruthy], ?_, ?_, ?_, ?_⟩
      <;> norm_num
  constructor
  · unfold get_plot_defaults
    rw [if_pos hr]
    rfl
  · unfold get_plot_defaults
    rw [if_pos hr']
    rfl

/-- C1 witness: the saved-reuse precedence applied at the claim's
concrete input. -/
theorem c1_saved_reuse_precedence_witness :
    get_plot_defaults (some (1 / 10)) (some (9 / 10)) 0 100 "percentage" =
      PyResult.ok (1 / 10, 9 / 10) :=
  (c1_saved_reuse_precedence (1 / 10) (9 / 10) 0 100 "percentage"
      (by norm_num) (by norm_num) (by norm_num) (by norm_num) (by norm_num)
      (by norm_num)).1

/-- C9: in the `percentage` branch a missing/`None` saved bound is
multiplied by the value range before the `None`-check that would fall
back to `min_v`/`max_v`, so `get_plot_defaults` raises `TypeError`
whenever either saved bound is `None` (the saved-reuse branch can never
apply then, since `None` is falsy); with both bounds present the branch
always returns a pair. -/
theorem c9_percentage_none_raises :
    (∀ (nu : Option ℚ) (min_v max_v : ℚ),
        get_plot_defaults none nu min_v max_v "percentage" =
          PyResult.exn "TypeError") ∧
    (∀ nl min_v max_v : ℚ,
        get_plot_defaults (some nl) none min_v max_v "percentage" =
          PyResult.exn "TypeError") ∧
    (∀ nl nu min_v max_v : ℚ, ∃ p : ℚ × ℚ,
        get_plot_defaults (some nl) (some nu) min_v max_v "percentage" =
          PyResult.ok p) := by
  refine ⟨fun nu min_v max_v => ?_, fun nl min_v max_v => ?_,
    fun nl nu min_v max_v => ?_⟩
  · have hr : ¬ savedReuseApplies none nu min_v max_v := by
      rintro ⟨ht, -⟩
      simp [pyTruthy] at ht
    unfold get_plot_defaults
    rw [if_neg hr, if_pos rfl]
  · have hr : ¬ savedReuseApplies (some nl) none min_v max_v := by
      rintro ⟨-, ht, -⟩
      simp [pyTruthy] at ht
    unfold get_plot_defaults
    rw [if_neg hr, if_pos rfl]
  · by_cases hr : savedReuseApplies (some nl) (some nu) min_v max_v
    · exact ⟨(nl, nu), by unfold get_plot_defaults; rw [if_pos hr]; rfl⟩
    · unfold get_plot_defaults
      rw [if_neg hr, if_pos rfl]
      dsimp only
      split_ifs <;> exact ⟨_, rfl⟩

/-! ### Exact-duplicate grouping -/

/-- Appending an id for hash `h` updates `h`'s entry: it becomes the old
entry (or `[]`) with the id appended. -/
theorem lookupIds_addToGroups_self (gs : List (String × List ℕ))
    (h : String) (i : ℕ) :
    lookupIds (addToGroups gs h i) h =
      some ((lookupIds gs h).getD [] ++ [i]) := by
  induction gs with
  | nil => simp [addToGroups, lookupIds]
  | cons g rest ih =>
      by_cases hg : g.1 = h
      · simp [addToGroups, lookupIds, hg]
      · simp [addToGroups, lookupIds, hg, ih]

/-- Appending an id for a different hash leaves `h`'s entry alone. -/
theorem lookupIds_addToGroups_other (gs : List (String × List ℕ))
    (k h : String) (i : ℕ) (hkh : k ≠ h) :
    lookupIds (addToGroups gs k i) h = lookupIds gs h := by
  induction gs with
  | nil => simp [addToGroups, lookupIds, hkh]
  | cons g rest ih =>
      by_cases hg : g.1 = k
      · simp [addToGroups, lookupIds, hg, hkh]
      · by_cases hgh : g.1 = h
        · simp [addToGroups, lookupIds, hg, hgh, Ne.symm hkh]
        · simp [addToGroups, lookupIds, hg, hgh, ih]

/-- Running the grouping loop over `ps` extends `h`'s entry (for a
duplicate hash `h`) by exactly the ids of `ps` whose hash is `h`, in
order. -/
theorem lookupIds_buildGroupsAux (dups : List String) (h : String)
    (hmem : h ∈ dups) (ps : List (ℕ × String)) :
    ∀ acc : List (String × List ℕ),
      lookupIds (buildGroupsAux dups acc ps) h =
        combineIds (lookupIds acc h) (idsFor ps h) := by
  induction ps with
  | nil =>
      intro acc
      have hids : idsFor ([] : List (ℕ × String)) h = [] := rfl
      rw [hids]
      cases hacc : lookupIds acc h <;> simp [buildGroupsAux, combineIds, hacc]
  | cons p ps ih =>
      intro acc
      by_cases hph : p.2 = h
      · have hpd : p.2 ∈ dups := by rw [hph]; exact hmem
        have hstep : buildGroupsAux dups acc (p :: ps) =
            buildGroupsAux dups (addToGroups acc p.2 p.1) ps := by
          simp [buildGroupsAux, hpd]
        have hids : idsFor (p :: ps) h = p.1 :: idsFor ps h := by
          simp [idsFor, List.filter_cons, hph]
        rw [hstep, ih, hids, hph, lookupIds_addToGroups_self]
        cases hacc : lookupIds acc h with
        | none => simp [combineIds]
        | some ids =>
            simp [combineIds, List.append_assoc]
      · have hids : idsFor (p :: ps) h = idsFor ps h := by
          simp [idsFor, List.filter_cons, hph]
        by_cases hpd : p.2 ∈ dups
        · have hstep : buildGroupsAux dups acc (p :: ps) =
              buildGroupsAux dups (addToGroups acc p.2 p.1) ps := by
            simp [buildGroupsAux, hpd]
          rw [hstep, ih, hids, lookupIds_addToGroups_other acc p.2 h p.1 hph]
        · have hstep : buildGroupsAux dups acc (p :: ps) =
              buildGroupsAux dups acc ps := by
            simp [buildGroupsAux, hpd]
          rw [hstep, ih, hids]

/-- The group of ids collected for a hash has as many entries as the hash
has occurrences. -/
theorem idsFor_length (pairs : List (ℕ × String)) (h : String) :
    (idsFor pairs h).length = (pairs.map Prod.snd).count h := by
  induction pairs with
  | nil => rfl
  | cons p ps ih =>
      by_cases hph : p.2 = h
      · simp [idsFor, List.filter_cons, hph, List.count_cons] at *
        omega
      · simp [idsFor, List.filter_cons, hph, List.count_cons] at *
        simpa [hph] using ih

/-- Membership in `dup_filehashes` is exactly multiplicity at least 2. -/
theorem mem_dup_filehashes (hashes : List String) (h : String) :
    h ∈ dup_filehashes hashes ↔ 2 ≤ hashes.count h := by
  constructor
  · intro hmem
    simp [dup_filehashes, List.mem_filter] at hmem
    omega
  · intro hcount
    have hpos : 0 < hashes.count h := by omega
    have hmem : h ∈ hashes := by
      by_contra hno
      rw [List.count_eq_zero_of_not_mem hno] at hpos
      omega
    simp [dup_filehashes, List.mem_filter, List.mem_dedup, hmem]
    omega

/-- C2: `_process_exact_duplicates` returns exactly the hashes with
multiplicity at least 2, maps each such hash to its sample ids in
encounter order, returns as its count the sum of all group sizes, and on
hashes `["a","a","b","c","c","c"]` with ids `[1..6]` yields duplicate
hashes `{"a","c"}`, groups `a ↦ [1,2]`, `c ↦ [4,5,6]`, and count 5. -/
theorem c2_exact_duplicate_grouping :
    (∀ (pairs : List (ℕ × String)) (h : String),
        h ∈ (process_exact_duplicates pairs).1 ↔
          2 ≤ (pairs.map Prod.snd).count h) ∧
    (∀ (pairs : List (ℕ × String)) (h : String),
        2 ≤ (pairs.map Prod.snd).count h →
        lookupIds (process_exact_duplicates pairs).2.1 h =
          some (idsFor pairs h)) ∧
    (∀ pairs : List (ℕ × String),
        (process_exact_duplicates pairs).2.2 =
          ((process_exact_duplicates pairs).2.1.map
            (fun g => g.2.length)).sum) ∧
    process_exact_duplicates
        [(1, "a"), (2, "a"), (3, "b"), (4, "c"), (5, "c"), (6, "c")] =
      (["a", "c"], [("a", [1, 2]), ("c", [4, 5, 6])], 5) := by
  refine ⟨fun pairs h => mem_dup_filehashes _ h, fun pairs h hcount => ?_,
    fun pairs => rfl, by rfl⟩
  have hmem : h ∈ dup_filehashes (pairs.map Prod.snd) :=
    (mem_dup_filehashes _ h).2 hcount
  have hmain := lookupIds_buildGroupsAux (dup_filehashes
    (pairs.map Prod.snd)) h hmem pairs []
  have hne : idsFor pairs h ≠ [] := by
    intro hnil
    have := idsFor_length pairs h
    rw [hnil] at this
    simp at this
    omega
  show lookupIds (buildGroups (dup_filehashes (pairs.map Prod.snd)) pairs)
      h = some (idsFor pairs h)
  rw [buildGroups] at *
  rw [hmain]
  cases hids : idsFor pairs h with
  | nil => exact absurd hids hne
  | cons a t => simp [combineIds, lookupIds]

/-- C2 witness: the grouping property applied to the claim's concrete
input at hash `"a"`. -/
theorem c2_exact_duplicate_grouping_witness :
    2 ≤ (([(1, "a"), (2, "a"), (3, "b"), (4, "c"), (5, "c"), (6, "c")] :
        List (ℕ × String)).map Prod.snd).count "a" ∧
    lookupIds (process_exact_duplicates
        [(1, "a"), (2, "a"), (3, "b"), (4, "c"), (5, "c"), (6, "c")]).2.1
        "a" =
      some (idsFor
        [(1, "a"), (2, "a"), (3, "b"), (4, "c"), (5, "c"), (6, "c")] "a") :=
  ⟨by decide,
   c2_exact_duplicate_grouping.2.1
     [(1, "a"), (2, "a"), (3, "b"), (4, "c"), (5, "c"), (6, "c")] "a"
     (by decide)⟩

/-- C8: with no `filehash` field at all, or with no sample carrying one,
`_process_exact_duplicates` returns `([], [], 0)` and raises nothing. -/
theorem c8_empty_or_hashless_dataset :
    (∀ samples : List (ℕ × Option String),
        process_exact_duplicates_on_dataset false samples = ([], [], 0)) ∧
    (∀ samples : List (ℕ × Option String),
        (∀ s ∈ samples, s.2 = none) →
        process_exact_duplicates_on_dataset true samples = ([], [], 0)) := by
  constructor
  · intro samples
    rfl
  · intro samples hall
    have hnil : samples.filterMap
        (fun s => s.2.map (fun h => (s.1, h))) = [] := by
      rw [List.filterMap_eq_nil_iff]
      intro a ha
      rw [hall a ha]
      rfl
    unfold process_exact_duplicates_on_dataset
    rw [if_pos rfl, hnil]
    rfl

/-- C8 witness: the hash-less case applied to a one-sample dataset. -/
theorem c8_empty_or_hashless_dataset_witness :
    (∀ s ∈ ([(7, none)] : List (ℕ × Option String)), s.2 = none) ∧
    process_exact_duplicates_on_dataset true [(7, none)] = ([], [], 0) :=
  ⟨by decide, c8_empty_or_hashless_dataset.2 [(7, none)] (by decide)⟩

/-! ### Histogram bucketing (`prepare_histogram_data`) -/

/-- Evaluating an index-mapped list at an in-range index. -/
theorem getD_map_range {α : Type} (f : ℕ → α) (d : α) (n i : ℕ)
    (hi : i < n) : ((List.range n).map f).getD i d = f i := by
  rw [List.getD_eq_getElem?_getD, List.getElem?_map, List.getElem?_range hi]
  rfl

/-- C10: for bin counts of length `n` and `n+1` edges with ordered
thresholds, `prepare_histogram_data` returns two length-`n` lists that
split each bin's count: position `i` carries `counts[i]` in the
in-threshold list and `0` in the out-of-threshold list exactly when the
bin midpoint `(edges[i]+edges[i+1])/2` lies in
`[lower_thresh, upper_thresh]`, and the other way around otherwise. -/
theorem c10_histogram_threshold_split (counts : List ℕ) (edges : List ℚ)
    (lower_thresh upper_thresh : ℚ)
    (hedges : edges.length = counts.length + 1)
    (hle : lower_thresh ≤ upper_thresh) :
    (prepare_histogram_data counts edges lower_thresh
      upper_thresh).1.length = counts.length ∧
    (prepare_histogram_data counts edges lower_thresh
      upper_thresh).2.length = counts.length ∧
    ∀ i, i < counts.length →
      (prepare_histogram_data counts edges lower_thresh
            upper_thresh).1.getD i 0 +
          (prepare_histogram_data counts edges lower_thresh
            upper_thresh).2.getD i 0 = counts.getD i 0 ∧
      ((prepare_histogram_data counts edges lower_thresh
            upper_thresh).1.getD i 0 = 0 ∨
        (prepare_histogram_data counts edges lower_thresh
            upper_thresh).2.getD i 0 = 0) ∧
      (lower_thresh ≤ (edges.getD i 0 + edges.getD (i + 1) 0) / 2 ∧
          (edges.getD i 0 + edges.getD (i + 1) 0) / 2 ≤ upper_thresh →
        (prepare_histogram_data counts edges lower_thresh
            upper_thresh).1.getD i 0 = counts.getD i 0 ∧
        (prepare_histogram_data counts edges lower_thresh
            upper_thresh).2.getD i 0 = 0) ∧
      (¬(lower_thresh ≤ (edges.getD i 0 + edges.getD (i + 1) 0) / 2 ∧
          (edges.getD i 0 + edges.getD (i + 1) 0) / 2 ≤ upper_thresh) →
        (prepare_histogram_data counts edges lower_thresh
            upper_thresh).2.getD i 0 = counts.getD i 0 ∧
        (prepare_histogram_data counts edges lower_thresh
            upper_thresh).1.getD i 0 = 0) := by
  refine ⟨by simp [prepare_histogram_data],
    by simp [prepare_histogram_data], fun i hi => ?_⟩
  have e1 : (prepare_histogram_data counts edges lower_thresh
      upper_thresh).1.getD i 0 =
      (if lower_thresh ≤ (edges.getD i 0 + edges.getD (i + 1) 0) / 2 ∧
          (edges.getD i 0 + edges.getD (i + 1) 0) / 2 ≤ upper_thresh then
        counts.getD i 0
      else 0) :=
    getD_map_range _ 0 counts.length i hi
  have e2 : (prepare_histogram_data counts edges lower_thresh
      upper_thresh).2.getD i 0 =
      (if lower_thresh ≤ (edges.getD i 0 + edges.getD (i + 1) 0) / 2 ∧
          (edges.getD i 0 + edges.getD (i + 1) 0) / 2 ≤ upper_thresh then 0
      else counts.getD i 0) :=
    getD_map_range _ 0 counts.length i hi
  rw [e1, e2]
  by_cases hc : lower_thresh ≤ (edges.getD i 0 + edges.getD (i + 1) 0) / 2 ∧
      (edges.getD i 0 + edges.getD (i + 1) 0) / 2 ≤ upper_thresh
  · rw [if_pos hc, if_pos hc]
    exact ⟨Nat.add_zero _, Or.inr rfl, fun _ => ⟨rfl, rfl⟩,
      fun hnc => absurd hc hnc⟩
  · rw [if_neg hc, if_neg hc]
    exact ⟨Nat.zero_add _, Or.inl rfl, fun h => absurd h hc,
      fun _ => ⟨rfl, rfl⟩⟩

/-- C10 witness: the split property applied to a concrete two-bin
histogram where only the first bin's midpoint is inside the
thresholds. -/
theorem c10_histogram_threshold_split_witness :
    ([(0 : ℚ), 2, 4] : List ℚ).length = ([3, 5] : List ℕ).length + 1 ∧
    (0 : ℚ) ≤ 2 ∧
    (prepare_histogram_data [3, 5] [0, 2, 4] 0 2).1.getD 0 0 +
        (prepare_histogram_data [3, 5] [0, 2, 4] 0 2).2.getD 0 0 =
      ([3, 5] : List ℕ).getD 0 0 :=
  ⟨by decide, by norm_num,
   (((c10_histogram_threshold_split [3, 5] [0, 2, 4] 0 2 (by decide)
      (by norm_num)).2.2 0 (by decide)).1)⟩

/-! ### Delegated-run polling and timeouts (`check_computing_status`) -/

/-- C4 counterexample: a delegated run in `COMPUTING` whose scan started
at time 0, polled at time 20 (minutes) — well past the 10-minute mark —
with no polled update (`run_state` is `None`): `check_computing_status`
leaves the status at `COMPUTING` instead of resetting it to
`NOT_COMPUTED`; the 10-minute timeout lives only in the non-delegated
branch. -/
theorem c4_counterexample :
    (check_computing_status
        ⟨IssueStatus.computing,
          ⟨true, "delegate_execution", "r1", "running"⟩, some 0⟩
        20 "r1" (PollOutcome.state none) true).map
        (fun r => r.1.status) = some IssueStatus.computing ∧
      IssueStatus.computing ≠ IssueStatus.notComputed := by
  constructor
  · rfl
  · decide

/-- C4 (amended): `check_computing_status` applies no elapsed-time reset
to delegated runs: whatever the current time, a delegated run in
`COMPUTING` keeps status `COMPUTING` when the poll yields no update
(`run_state` `None`) or any in-progress state; it is reset to
`NOT_COMPUTED` only when the poll itself raises. -/
theorem c4_delegated_runs_have_no_timeout (c : StoreContent) (now : ℚ)
    (run_id : String) (recomputeOk : Bool)
    (hexec : c.computing.execution_type = "delegate_execution")
    (hstatus : c.status = IssueStatus.computing) :
    ((check_computing_status c now run_id (PollOutcome.state none)
        recomputeOk).map (fun r => r.1.status) =
      some IssueStatus.computing) ∧
    (∀ st : String, st ≠ "failed" → st ≠ "completed" →
      (check_computing_status c now run_id (PollOutcome.state (some st))
          recomputeOk).map (fun r => r.1.status) =
        some IssueStatus.computing) ∧
    ((check_computing_status c now run_id PollOutcome.exc
        recomputeOk).map (fun r => r.1.status) =
      some IssueStatus.notComputed) := by
  refine ⟨?_, fun st hst1 hst2 => ?_, ?_⟩
  · simp [check_computing_status, hexec, hstatus]
  · simp [check_computing_status, hexec, hstatus, change_computing_status,
      hst1, hst2]
  · simp [check_computing_status, hexec, change_computing_status]

/-- C4 witness: the amended behaviour at a concrete delegated
`COMPUTING` record 20 minutes after scan start. -/
theorem c4_delegated_runs_have_no_timeout_witness :
    (⟨IssueStatus.computing, ⟨true, "delegate_execution", "r1", "running"⟩,
        some 0⟩ : StoreContent).computing.execution_type =
      "delegate_execution" ∧
    (check_computing_status
        ⟨IssueStatus.computing,
          ⟨true, "delegate_execution", "r1", "running"⟩, some 0⟩
        20 "r1" (PollOutcome.state (some "running")) true).map
        (fun r => r.1.status) = some IssueStatus.computing :=
  ⟨rfl,
   (c4_delegated_runs_have_no_timeout
      ⟨IssueStatus.computing,
        ⟨true, "delegate_execution", "r1", "running"⟩, some 0⟩
      20 "r1" true rfl rfl).2.1 "running" (by decide) (by decide)⟩

/-- C5: a non-delegated (`execution_type ≠ "delegate_execution"`) record
in `COMPUTING` polled strictly later than `last_scan.timestamp + 10`
minutes is reset: `is_computing` becomes false and the status becomes
`NOT_COMPUTED`, and the call returns normally (no exception). -/
theorem c5_immediate_timeout_resets (c : StoreContent) (now ts : ℚ)
    (run_id : String) (poll : PollOutcome) (recomputeOk : Bool)
    (hexec : c.computing.execution_type ≠ "delegate_execution")
    (hts : c.lastScanTimestamp = some ts)
    (htime : now > ts + 10)
    (hstatus : c.status = IssueStatus.computing) :
    check_computing_status c now run_id poll recomputeOk =
      some (change_computing_status c false "" "" ""
        (some IssueStatus.notComputed), "") ∧
    (check_computing_status c now run_id poll recomputeOk).map
        (fun r => r.1.status) = some IssueStatus.notComputed ∧
    (check_computing_status c now run_id poll recomputeOk).map
        (fun r => r.1.computing.is_computing) = some false := by
  have hmain : check_computing_status c now run_id poll recomputeOk =
      some (change_computing_status c false "" "" ""
        (some IssueStatus.notComputed), "") := by
    unfold check_computing_status
    rw [if_pos hexec, hts]
    simp [htime]
  exact ⟨hmain, by rw [hmain]; rfl, by rw [hmain]; rfl⟩

/-- C5 witness: the immediate-execution timeout at a concrete record
whose scan started at time 0, polled at time 20. -/
theorem c5_immediate_timeout_resets_witness :
    (⟨IssueStatus.computing, ⟨true, "execute", "", ""⟩, some 0⟩ :
        StoreContent).computing.execution_type ≠ "delegate_execution" ∧
    (20 : ℚ) > 0 + 10 ∧
    (check_computing_status
        ⟨IssueStatus.computing, ⟨true, "execute", "", ""⟩, some 0⟩
        20 "" PollOutcome.exc true).map (fun r => r.1.status) =
      some IssueStatus.notComputed :=
  ⟨by decide, by norm_num,
   (c5_immediate_timeout_resets
      ⟨IssueStatus.computing, ⟨true, "execute", "", ""⟩, some 0⟩
      20 0 "" PollOutcome.exc true (by decide) rfl (by norm_num)
      rfl).2.1⟩

/-- C6: when a delegated run polls as `failed` and the local
recomputation fallback succeeds, the final persisted status is
`NEEDS_REVIEW` (set by `_process_issue_computation`), not the
`NOT_COMPUTED` written transiently when the failure was seen. -/
theorem c6_failed_recompute_success_needs_review (c : StoreContent)
    (now : ℚ) (run_id : String)
    (hexec : c.computing.execution_type = "delegate_execution") :
    ((check_computing_status c now run_id
        (PollOutcome.state (some "failed")) true).map
        (fun r => r.1.status) = some IssueStatus.needsReview) ∧
    ((check_computing_status c now run_id
        (PollOutcome.state (some "failed")) true).map
        (fun r => r.1.status) ≠ some IssueStatus.notComputed) := by
  have hmain : (check_computing_status c now run_id
      (PollOutcome.state (some "failed")) true).map
      (fun r => r.1.status) = some IssueStatus.needsReview := by
    simp [check_computing_status, hexec, process_issue_computation,
      change_computing_status, navigate_to_analysis]
  exact ⟨hmain, by rw [hmain]; simp⟩

/-- C6 witness: the failed-then-successful-recompute path at a concrete
delegated record. -/
theorem c6_failed_recompute_success_needs_review_witness :
    (⟨IssueStatus.computing, ⟨true, "delegate_execution", "r9", "running"⟩,
        some 0⟩ : StoreContent).computing.execution_type =
      "delegate_execution" ∧
    (check_computing_status
        ⟨IssueStatus.computing,
          ⟨true, "delegate_execution", "r9", "running"⟩, some 0⟩
        30 "r9" (PollOutcome.state (some "failed")) true).map
        (fun r => r.1.status) = some IssueStatus.needsReview :=
  ⟨rfl,
   (c6_failed_recompute_success_needs_review
      ⟨IssueStatus.computing,
        ⟨true, "delegate_execution", "r9", "running"⟩, some 0⟩
      30 "r9" rfl).1⟩
